import Mathlib

/-!
Shallow embedding of the crawl scheduler in `backend/餐飲稽查/scrape_final.py`.

Modelling conventions:
* Dates are modelled as `Int` (the order type of `datetime.date`); a row's
  `日期` field is carried as `date? : Option Int`, the result of
  `parse_date(item['日期'])` — `none` models an unparseable date string.
* Network fetches are inputs of the model: `scrape_page_from_html` takes the
  underlying request outcome (`Except` for a raised exception vs. a parsed row
  list), and the scheduler takes a `fetch : page → attempts-so-far → rows`
  environment.
* The per-page progress dict is a total function `Nat → PageEntry`; wall-clock
  fields (`generated_at`, `last_update`, `last_elapsed_sec`) and the recorded
  `worker` id are not modelled.  Python dict iteration over the pages table
  visits keys `1..total_pages` in insertion order; since each loop iteration of
  the scheduler's bookkeeping pass touches only its own page's entry, the pass
  is embedded as a per-page function (`roundBookkeepingProg` / `pendingOf`).
* Workers of one round own disjoint pages and all shared-state updates happen
  under locks, so the end-of-round state is the same for every interleaving;
  the executable model runs the flattened worker assignments sequentially, and
  a separate small-step relation (`Step`) covers arbitrary interleavings of
  the locked update sections for the invariant claims.
-/

/-- Page status values used in the progress table of `scrape_final.py`
(`pending`, `success`, `failed`, `skipped`, `skipped_date`). -/
inductive PStatus where
  | pending
  | success
  | failed
  | skipped
  | skippedDate
deriving DecidableEq, Repr

/-- One scraped row.  `payload` stands for the fields the scheduler treats as
opaque (名稱/地址/電話/登錄字號/狀態); `date?` is the parse result of the 日期
field under `parse_date` (format `%Y.%m.%d`), `none` when unparseable. -/
structure Row where
  payload : String
  date? : Option Int
deriving DecidableEq, Repr

/-- One entry of `progress['pages']` (wall-clock fields and worker id are not
modelled; keys absent from the dict are `none` / defaults). -/
structure PageEntry where
  status : PStatus
  attempts : Nat
  lastError : Option String
  rawRecords : Option Nat
  filteredRecords : Option Nat
  hasRecent : Bool
  pageLatestDate : Option Int
  pageOldestDate : Option Int
  maxDate : Option Int
  minDate : Option Int
deriving DecidableEq, Repr

/-- The per-run configuration (the module globals set once by `main`). -/
structure Config where
  totalPages : Nat
  pageSize : Nat
  workerCount : Nat
  maxRetries : Nat
  startDate : Int
  endDate : Int

/-- Shared mutable state of a run: the progress table, `results_by_page`
(an insertion-ordered association list, like a Python dict), and
`global_state['max_page_allowed']`. -/
structure RunState where
  progress : Nat → PageEntry
  results : List (Nat × List Row)
  maxPageAllowed : Nat

/-- Fresh progress entry created by `init_progress`:
`{'status': 'pending', 'attempts': 0}`. -/
def initEntry : PageEntry :=
  { status := PStatus.pending, attempts := 0, lastError := none,
    rawRecords := none, filteredRecords := none, hasRecent := false,
    pageLatestDate := none, pageOldestDate := none,
    maxDate := none, minDate := none }

/-- Initial run state of `run_parallel_scrape_with_tracking`: every page
pending, empty `results_by_page`, ceiling `total_pages`. -/
def initState (cfg : Config) : RunState :=
  { progress := fun _ => initEntry, results := [],
    maxPageAllowed := cfg.totalPages }

/-- Point update of the progress table. -/
def updateFn (page : Nat) (f : PageEntry → PageEntry)
    (prog : Nat → PageEntry) : Nat → PageEntry :=
  fun q => if q = page then f (prog q) else prog q

/-- The fetch wrapper `scrape_page_from_html`: any exception raised while
requesting or parsing the page is caught and turned into the empty row list
(`except Exception: return []`); `Except.error` models the raised exception,
`Except.ok rows` the parsed result. -/
def scrape_page_from_html (outcome : Except String (List Row)) : List Row :=
  match outcome with
  | Except.ok rows => rows
  | Except.error _ => []

/-- The worker's success test (line `if data and (len(data) == PAGE_SIZE or
page == total_pages)`). -/
def workerSuccess (data : List Row) (pageSize page totalPages : Nat) : Bool :=
  !data.isEmpty && (data.length == pageSize || page == totalPages)

/-- The worker's `error_msg` computation for a non-successful fetch (note the
hard-coded `20` of the source's `len(data) != 20` test, and the unreachable
final branch for an empty last page). -/
def workerErrorMsg (data : List Row) (page totalPages : Nat) : String :=
  if data.isEmpty then "無資料或解析失敗"
  else if data.length != 20 && page != totalPages then
    "僅取得 " ++ toString data.length ++ " 筆"
  else if page == totalPages && data.isEmpty then "最後一頁無任何資料"
  else ""

/-- The bookkeeping performed under `progress_lock` right after a fetch:
increment attempts, record the raw count, and set `success`/`failed` status
(`entry['last_error'] = error_msg or '未知原因'`). -/
def bookkeepAttempt (success : Bool) (errorMsg : String) (rawCount : Nat)
    (e : PageEntry) : PageEntry :=
  let e1 := { e with attempts := e.attempts + 1, rawRecords := some rawCount }
  if success then { e1 with status := PStatus.success, lastError := none }
  else
    { e1 with status := PStatus.failed,
              lastError := some (if errorMsg = "" then "未知原因" else errorMsg) }

/-- The worker's filtering loop: one pass over the page's rows collecting
`page_dates` (all parseable dates) and `filtered` (rows whose date lies in
`[START_DATE, END_DATE]`), in row order. -/
def collectDatesAndFilter (startDate endDate : Int) :
    List Row → List Int × List Row
  | [] => ([], [])
  | item :: rest =>
    let acc := collectDatesAndFilter startDate endDate rest
    match item.date? with
    | some d =>
        (d :: acc.1,
         if startDate ≤ d && d ≤ endDate then item :: acc.2 else acc.2)
    | none => acc

/-- Maximum of a list of dates (`max(page_dates)`), `none` on the empty list. -/
def listMaxD : List Int → Option Int
  | [] => none
  | d :: ds => some (ds.foldl max d)

/-- Minimum of a list of dates (`min(page_dates)`), `none` on the empty list. -/
def listMinD : List Int → Option Int
  | [] => none
  | d :: ds => some (ds.foldl min d)

/-- The statistics written to the page's progress entry after a successful
fetch with data: filtered count, `has_recent`, page-wide latest/oldest dates
(over all parseable rows) and min/max dates over the retained rows. -/
def recordFilterStats (filtered : List Row) (pdates : List Int)
    (e : PageEntry) : PageEntry :=
  let e1 := { e with filteredRecords := some filtered.length,
                     hasRecent := !filtered.isEmpty }
  let e2 :=
    match listMaxD pdates, listMinD pdates with
    | some mx, some mn =>
        { e1 with pageLatestDate := some mx, pageOldestDate := some mn }
    | _, _ => e1
  if filtered.isEmpty then e2
  else
    match listMaxD (filtered.filterMap (fun item => item.date?)),
          listMinD (filtered.filterMap (fun item => item.date?)) with
    | some mx, some mn => { e2 with maxDate := some mx, minDate := some mn }
    | _, _ => e2

/-- Dict assignment `results_by_page[page] = filtered` on the
insertion-ordered association list. -/
def setResult (page : Nat) (rows : List Row) :
    List (Nat × List Row) → List (Nat × List Row)
  | [] => [(page, rows)]
  | (q, r) :: rest =>
      if q = page then (q, rows) :: rest else (q, r) :: setResult page rows rest

/-- The early-stop update at the end of `worker_job`: if the page saw any
parseable date and the newest one is strictly before `START_DATE`, lower
`max_page_allowed` to `min(current, page - 1)`; otherwise leave it. -/
def updateCeiling (startDate : Int) (page : Nat) (pdates : List Int)
    (ceil : Nat) : Nat :=
  match listMaxD pdates with
  | none => ceil
  | some newest => if newest < startDate then min ceil (page - 1) else ceil

/-- One full per-page iteration of `worker_job`: fetch result `data` is given;
performs the attempt bookkeeping, then (on success with data) the filtering,
stats, `results_by_page` update, and finally the ceiling update. -/
def processPage (cfg : Config) (page : Nat) (data : List Row)
    (s : RunState) : RunState :=
  let success := workerSuccess data cfg.pageSize page cfg.totalPages
  let errorMsg := if success then "" else workerErrorMsg data page cfg.totalPages
  let prog1 := updateFn page (bookkeepAttempt success errorMsg data.length) s.progress
  if success && !data.isEmpty then
    let pf := collectDatesAndFilter cfg.startDate cfg.endDate data
    let prog2 := updateFn page (recordFilterStats pf.2 pf.1) prog1
    let results2 := setResult page pf.2 s.results
    let ceil2 := updateCeiling cfg.startDate page pf.1 s.maxPageAllowed
    { progress := prog2, results := results2, maxPageAllowed := ceil2 }
  else if success then
    let noData := fun (e : PageEntry) =>
      { e with filteredRecords := some 0, hasRecent := false }
    { s with progress := updateFn page noData prog1 }
  else
    { s with progress := prog1 }

/-- Function `count_completed`: number of pages whose status is `success`. -/
def count_completed (totalPages : Nat) (prog : Nat → PageEntry) : Nat :=
  ((List.range' 1 totalPages).filter
    (fun p => decide ((prog p).status = PStatus.success))).length

/-- Effect of one iteration of the scheduler's round-opening loop on the
iterated page's own entry (mark `skipped_date` above the ceiling, keep
`success`, mark `skipped` at the retry limit, leave pending pages alone). -/
def bookkeepEntry1 (cfg : Config) (ceil : Nat) (page : Nat)
    (e : PageEntry) : PageEntry :=
  if page > ceil then
    if e.status ≠ PStatus.skipped ∧ e.status ≠ PStatus.skippedDate then
      { e with status := PStatus.skippedDate,
               lastError := some "日期早於指定範圍" }
    else e
  else if e.status = PStatus.success then e
  else if e.attempts ≥ cfg.maxRetries then
    if e.status ≠ PStatus.skipped then
      { e with status := PStatus.skipped,
               lastError := some (e.lastError.getD "已達最大重試次數") }
    else e
  else e

/-- The pending pages collected by the same loop, in ascending page order
(the source's subsequent `pending_pages.sort()` is the identity on it):
pages within the ceiling, not yet successful, below the retry limit. -/
def pendingOf (cfg : Config) (ceil : Nat) (prog : Nat → PageEntry) : List Nat :=
  (List.range' 1 cfg.totalPages).filter
    (fun page => decide (page ≤ ceil ∧ (prog page).status ≠ PStatus.success ∧
      (prog page).attempts < cfg.maxRetries))

/-- The whole round-opening pass over the progress table (each iteration
touches only its own page, so the pass is a per-page map on `1..totalPages`). -/
def roundBookkeepingProg (cfg : Config) (ceil : Nat)
    (prog : Nat → PageEntry) : Nat → PageEntry :=
  fun page =>
    if 1 ≤ page ∧ page ≤ cfg.totalPages then bookkeepEntry1 cfg ceil page (prog page)
    else prog page

/-- Partition `assign_pages_to_workers`: worker `i` receives, in order, the pages with
`(page - 1) % worker_count == i`. -/
def assign_pages_to_workers (workerCount : Nat) (pages : List Nat) :
    List (List Nat) :=
  (List.range workerCount).map
    (fun i => pages.filter (fun page => decide ((page - 1) % workerCount = i)))

/-- Sequential execution of the round's page list (a linearization of the
workers, which own disjoint pages): each page is fetched with the attempt
count it has at that moment and processed by `processPage`. -/
def processPages (cfg : Config) (fetch : Nat → Nat → List Row) :
    List Nat → RunState → RunState
  | [], s => s
  | page :: rest, s =>
      processPages cfg fetch rest
        (processPage cfg page (fetch page (s.progress page).attempts) s)

/-- The `while True` round loop of `run_parallel_scrape_with_tracking`,
fuel-indexed.  Each continued round strictly increases `count_completed`
(which is at most `totalPages`), so fuel `totalPages + 2` always reaches the
source's own break. -/
def runRounds (cfg : Config) (fetch : Nat → Nat → List Row) :
    Nat → RunState → RunState
  | 0, s => s
  | Nat.succ fuel, s =>
      let s1 : RunState :=
        { s with progress := roundBookkeepingProg cfg s.maxPageAllowed s.progress }
      let pending := pendingOf cfg s.maxPageAllowed s.progress
      if pending.isEmpty then s1
      else
        let before := count_completed cfg.totalPages s1.progress
        let s2 := processPages cfg fetch
          (assign_pages_to_workers cfg.workerCount pending).flatten s1
        let after := count_completed cfg.totalPages s2.progress
        if after = before then s2 else runRounds cfg fetch fuel s2

/-- Association-list lookup with default `[]` (a present key's value in
`results_by_page`). -/
def lookupD : List (Nat × List Row) → Nat → List Row
  | [], _ => []
  | (k, v) :: rest, q => if q = k then v else lookupD rest q

/-- Flattening `flatten_results`: iterate the page keys in sorted order and concatenate
each page's row block. -/
def flatten_results (results : List (Nat × List Row)) : List Row :=
  (List.insertionSort (fun a b => a ≤ b) (results.map Prod.fst)).flatMap
    (fun page => lookupD results page)

/-- The `unfinished` list computed at the end of
`run_parallel_scrape_with_tracking`: pages whose final status is not
`success`. -/
def unfinishedPages (totalPages : Nat) (prog : Nat → PageEntry) : List Nat :=
  (List.range' 1 totalPages).filter
    (fun p => decide ((prog p).status ≠ PStatus.success))

/-- Result of a run: the flattened aggregate, the unfinished list and the
final shared state. -/
structure RunResult where
  aggregated : List Row
  unfinished : List Nat
  final : RunState

/-- Top-level `run_parallel_scrape_with_tracking` as a function of the fetch
environment. -/
def run_parallel_scrape_with_tracking (cfg : Config)
    (fetch : Nat → Nat → List Row) : RunResult :=
  let s := runRounds cfg fetch (cfg.totalPages + 2) (initState cfg)
  { aggregated := flatten_results s.results,
    unfinished := unfinishedPages cfg.totalPages s.progress,
    final := s }

/-- Detection `detect_total_pages`: the metadata fetch either yields a parsed total
(`0` when the page-count span is missing or unparseable, in which case `0` is
returned) or raises, in which case the source defaults to **1** page
(`print(f"偵測總頁數失敗，採預設 1 頁"); return 1`). -/
def detect_total_pages (metaFetch : Except String Nat) : Nat :=
  match metaFetch with
  | Except.ok total => if total = 0 then 0 else total
  | Except.error _ => 1

/-- The date normalization in `main`: `if end_date < start_date:` the two
dates are swapped (`start_date, end_date = end_date, start_date`). -/
def normalizeCliDates (startDate endDate : Int) : Int × Int :=
  if endDate < startDate then (endDate, startDate) else (startDate, endDate)

/-- Page-size validation in `main`: sizes outside `{5, 10, 20}` fall back
to 20. -/
def clampPageSize (ps : Nat) : Nat :=
  if ps = 5 ∨ ps = 10 ∨ ps = 20 then ps else 20

/-- Worker-count validation in `main`: `max(1, min(10, args.workers or 5))`. -/
def clampWorkers (w : Nat) : Nat :=
  max 1 (min 10 (if w = 0 then 5 else w))

/-- Retry-limit validation in `main`: `max(1, args.max_retries or 5)`. -/
def clampRetries (r : Nat) : Nat :=
  max 1 (if r = 0 then 5 else r)

/-- The run-relevant part of `main`: normalize the date window, build the
configuration, detect the total page count, and either finalize immediately
with an empty aggregate (`total == 0`) or run the round loop. -/
def mainRun (startArg endArg : Int) (pageSizeArg workersArg retriesArg : Nat)
    (metaFetch : Except String Nat) (fetch : Nat → Nat → List Row) : RunResult :=
  let se := normalizeCliDates startArg endArg
  let cfg : Config :=
    { totalPages := detect_total_pages metaFetch,
      pageSize := clampPageSize pageSizeArg,
      workerCount := clampWorkers workersArg,
      maxRetries := clampRetries retriesArg,
      startDate := se.1, endDate := se.2 }
  if cfg.totalPages = 0 then
    { aggregated := [], unfinished := [], final := initState cfg }
  else run_parallel_scrape_with_tracking cfg fetch

/-!
Small-step trace model.  Every mutation of the shared progress table and of
`max_page_allowed` happens inside one of two locked code sections of the
source: a worker's per-page update (`worker_job`, one full page iteration) or
the scheduler's round-opening bookkeeping pass.  A `Step` is one such locked
section; a run observation trace is the reflexive-transitive closure.  The
worker step carries the source's scheduling precondition: a worker only ever
receives a page that the round opening left non-terminal (status `pending`
or `failed`), because terminal pages are filtered out of the pending set and
a page's entry is touched by no one else until its owning worker runs.
-/

/-- One locked mutation of the shared run state. -/
inductive Step (cfg : Config) : RunState → RunState → Prop
  | worker (page : Nat) (data : List Row) (s : RunState)
      (hst : (s.progress page).status = PStatus.pending ∨
             (s.progress page).status = PStatus.failed) :
      Step cfg s (processPage cfg page data s)
  | bookkeeping (s : RunState) :
      Step cfg s
        { s with progress := roundBookkeepingProg cfg s.maxPageAllowed s.progress }

/-- Observation trace: any finite sequence of locked mutations. -/
def Steps (cfg : Config) : RunState → RunState → Prop :=
  Relation.ReflTransGen (Step cfg)

theorem updateCeiling_le (startDate : Int) (page : Nat) (pdates : List Int)
    (ceil : Nat) : updateCeiling startDate page pdates ceil ≤ ceil := by
  unfold updateCeiling
  cases listMaxD pdates with
  | none => exact Nat.le_refl _
  | some newest =>
      by_cases h : newest < startDate
      · simp [h]
      · simp [h]

theorem updateCeiling_cases (startDate : Int) (page : Nat) (pdates : List Int)
    (ceil : Nat) : updateCeiling startDate page pdates ceil = ceil ∨
      updateCeiling startDate page pdates ceil = min ceil (page - 1) := by
  unfold updateCeiling
  cases listMaxD pdates with
  | none => exact Or.inl rfl
  | some newest =>
      by_cases h : newest < startDate
      · exact Or.inr (by simp [h])
      · exact Or.inl (by simp [h])

theorem processPage_maxPageAllowed_le (cfg : Config) (page : Nat)
    (data : List Row) (s : RunState) :
    (processPage cfg page data s).maxPageAllowed ≤ s.maxPageAllowed := by
  unfold processPage
  by_cases h1 : (workerSuccess data cfg.pageSize page cfg.totalPages &&
      !data.isEmpty) = true
  · simp only [h1, if_true]
    exact updateCeiling_le _ _ _ _
  · simp only [h1, if_false]
    by_cases h2 : workerSuccess data cfg.pageSize page cfg.totalPages = true
    · simp [h2]
    · simp [h2]

theorem step_maxPageAllowed_le {cfg : Config} {s t : RunState}
    (h : Step cfg s t) : t.maxPageAllowed ≤ s.maxPageAllowed := by
  cases h with
  | worker page data s hst => exact processPage_maxPageAllowed_le cfg page data s
  | bookkeeping s => exact Nat.le_refl _

theorem steps_maxPageAllowed_le {cfg : Config} {s t : RunState}
    (h : Steps cfg s t) : t.maxPageAllowed ≤ s.maxPageAllowed := by
  induction h with
  | refl => exact Nat.le_refl _
  | tail _ hstep ih => exact Nat.le_trans (step_maxPageAllowed_le hstep) ih

theorem processPage_progress_other (cfg : Config) (page : Nat)
    (data : List Row) (s : RunState) (q : Nat) (hq : q ≠ page) :
    (processPage cfg page data s).progress q = s.progress q := by
  unfold processPage
  by_cases h1 : (workerSuccess data cfg.pageSize page cfg.totalPages &&
      !data.isEmpty) = true
  · simp only [h1, if_true]
    simp [updateFn, hq]
  · simp only [h1, if_false]
    by_cases h2 : workerSuccess data cfg.pageSize page cfg.totalPages = true
    · simp only [h2, if_true]
      simp [updateFn, hq]
    · simp only [h2, if_false]
      simp [updateFn, hq]

theorem bookkeepAttempt_attempts (success : Bool) (errorMsg : String)
    (rawCount : Nat) (e : PageEntry) :
    (bookkeepAttempt success errorMsg rawCount e).attempts = e.attempts + 1 := by
  unfold bookkeepAttempt
  cases success <;> simp

theorem recordFilterStats_attempts (filtered : List Row) (pdates : List Int)
    (e : PageEntry) :
    (recordFilterStats filtered pdates e).attempts = e.attempts := by
  unfold recordFilterStats
  cases hmx : listMaxD pdates <;> cases hmn : listMinD pdates <;>
    by_cases hf : filtered.isEmpty <;>
      cases hfx : listMaxD (filtered.filterMap (fun item => item.date?)) <;>
        cases hfn : listMinD (filtered.filterMap (fun item => item.date?)) <;>
          simp [hmx, hmn, hf, hfx, hfn]

theorem processPage_attempts_self (cfg : Config) (page : Nat)
    (data : List Row) (s : RunState) :
    ((processPage cfg page data s).progress page).attempts =
      (s.progress page).attempts + 1 := by
  unfold processPage
  by_cases h1 : (workerSuccess data cfg.pageSize page cfg.totalPages &&
      !data.isEmpty) = true
  · simp only [h1, if_true]
    simp [updateFn, recordFilterStats_attempts, bookkeepAttempt_attempts]
  · simp only [h1, if_false]
    by_cases h2 : workerSuccess data cfg.pageSize page cfg.totalPages = true
    · simp only [h2, if_true]
      simp [updateFn, bookkeepAttempt_attempts]
    · simp only [h2, if_false]
      simp [updateFn, bookkeepAttempt_attempts]

theorem processPage_attempts_le (cfg : Config) (page : Nat) (data : List Row)
    (s : RunState) (q : Nat) :
    (s.progress q).attempts ≤ ((processPage cfg page data s).progress q).attempts := by
  by_cases hq : q = page
  · subst hq
    rw [processPage_attempts_self]
    exact Nat.le_succ _
  · rw [processPage_progress_other cfg page data s q hq]

theorem bookkeepEntry1_attempts (cfg : Config) (ceil page : Nat)
    (e : PageEntry) : (bookkeepEntry1 cfg ceil page e).attempts = e.attempts := by
  unfold bookkeepEntry1
  by_cases h1 : page > ceil
  · by_cases h2 : e.status ≠ PStatus.skipped ∧ e.status ≠ PStatus.skippedDate <;>
      simp [h1, h2]
  · by_cases h2 : e.status = PStatus.success
    · simp [h1, h2]
    · by_cases h3 : e.attempts ≥ cfg.maxRetries
      · by_cases h4 : e.status ≠ PStatus.skipped <;> simp [h1, h2, h3, h4]
      · simp [h1, h2, h3]

theorem roundBookkeepingProg_attempts (cfg : Config) (ceil : Nat)
    (prog : Nat → PageEntry) (q : Nat) :
    (roundBookkeepingProg cfg ceil prog q).attempts = (prog q).attempts := by
  unfold roundBookkeepingProg
  by_cases h : 1 ≤ q ∧ q ≤ cfg.totalPages
  · simp [h, bookkeepEntry1_attempts]
  · simp [h]

theorem processPages_attempts_le (cfg : Config) (fetch : Nat → Nat → List Row)
    (pages : List Nat) (s : RunState) (q : Nat) :
    (s.progress q).attempts ≤
      ((processPages cfg fetch pages s).progress q).attempts := by
  induction pages generalizing s with
  | nil => exact Nat.le_refl _
  | cons page rest ih =>
      exact Nat.le_trans (processPage_attempts_le cfg page _ s q) (ih _)

theorem runRounds_attempts_le (cfg : Config) (fetch : Nat → Nat → List Row)
    (fuel : Nat) (s : RunState) (q : Nat) :
    (s.progress q).attempts ≤ ((runRounds cfg fetch fuel s).progress q).attempts := by
  induction fuel generalizing s with
  | zero => exact Nat.le_refl _
  | succ fuel ih =>
      rw [runRounds]
      have hb : (s.progress q).attempts =
          (({ s with progress :=
                roundBookkeepingProg cfg s.maxPageAllowed s.progress } :
              RunState).progress q).attempts :=
        (roundBookkeepingProg_attempts cfg _ _ q).symm
      have h1 := processPages_attempts_le cfg fetch
        (assign_pages_to_workers cfg.workerCount
          (pendingOf cfg s.maxPageAllowed s.progress)).flatten
        { s with progress := roundBookkeepingProg cfg s.maxPageAllowed s.progress } q
      by_cases hpend : (pendingOf cfg s.maxPageAllowed s.progress).isEmpty = true
      · rw [if_pos hpend]
        exact Nat.le_of_eq hb
      · rw [if_neg hpend]
        dsimp only
        split
        · exact Nat.le_trans (Nat.le_of_eq hb) h1
        · exact Nat.le_trans (Nat.le_of_eq hb) (Nat.le_trans h1 (ih _))

theorem bookkeepEntry1_skipped (cfg : Config) (ceil page : Nat) (e : PageEntry)
    (h : e.status = PStatus.skipped) :
    (bookkeepEntry1 cfg ceil page e).status = PStatus.skipped := by
  unfold bookkeepEntry1
  by_cases h1 : page > ceil
  · have h2 : ¬ (e.status ≠ PStatus.skipped ∧ e.status ≠ PStatus.skippedDate) := by
      intro hc
      exact hc.1 h
    simp [h1, h2, h]
  · have h2 : e.status ≠ PStatus.success := by
      rw [h]
      intro hc
      exact PStatus.noConfusion hc
    by_cases h3 : e.attempts ≥ cfg.maxRetries
    · have h4 : ¬ e.status ≠ PStatus.skipped := fun hc => hc h
      simp [h1, h2, h3, h4, h]
    · simp [h1, h2, h3, h]

theorem bookkeepEntry1_skippedDate_high (cfg : Config) (ceil page : Nat)
    (e : PageEntry) (h : e.status = PStatus.skippedDate) (hc : ceil < page) :
    bookkeepEntry1 cfg ceil page e = e := by
  unfold bookkeepEntry1
  have h2 : ¬ (e.status ≠ PStatus.skipped ∧ e.status ≠ PStatus.skippedDate) := by
    intro hcc
    exact hcc.2 h
  simp [hc, h2]

theorem bookkeepEntry1_success (cfg : Config) (ceil page : Nat) (e : PageEntry)
    (h : e.status = PStatus.success) :
    (bookkeepEntry1 cfg ceil page e).status = PStatus.success ∨
      ((bookkeepEntry1 cfg ceil page e).status = PStatus.skippedDate ∧
        ceil < page) := by
  unfold bookkeepEntry1
  by_cases h1 : page > ceil
  · have h2 : e.status ≠ PStatus.skipped ∧ e.status ≠ PStatus.skippedDate := by
      rw [h]
      exact ⟨fun hc => PStatus.noConfusion hc, fun hc => PStatus.noConfusion hc⟩
    right
    simp [h1, h2]
  · left
    simp [h1, h]

theorem roundBookkeepingProg_skipped (cfg : Config) (ceil : Nat)
    (prog : Nat → PageEntry) (q : Nat) (h : (prog q).status = PStatus.skipped) :
    (roundBookkeepingProg cfg ceil prog q).status = PStatus.skipped := by
  unfold roundBookkeepingProg
  by_cases hr : 1 ≤ q ∧ q ≤ cfg.totalPages
  · simp only [hr, if_true]
    exact bookkeepEntry1_skipped cfg ceil q (prog q) h
  · simp only [hr, if_false]
    exact h

theorem roundBookkeepingProg_skippedDate (cfg : Config) (ceil : Nat)
    (prog : Nat → PageEntry) (q : Nat)
    (h : (prog q).status = PStatus.skippedDate) (hc : ceil < q) :
    (roundBookkeepingProg cfg ceil prog q).status = PStatus.skippedDate := by
  unfold roundBookkeepingProg
  by_cases hr : 1 ≤ q ∧ q ≤ cfg.totalPages
  · simp only [hr, if_true]
    rw [bookkeepEntry1_skippedDate_high cfg ceil q (prog q) h hc]
    exact h
  · simp only [hr, if_false]
    exact h

theorem roundBookkeepingProg_success (cfg : Config) (ceil : Nat)
    (prog : Nat → PageEntry) (q : Nat) (h : (prog q).status = PStatus.success) :
    (roundBookkeepingProg cfg ceil prog q).status = PStatus.success ∨
      ((roundBookkeepingProg cfg ceil prog q).status = PStatus.skippedDate ∧
        ceil < q) := by
  unfold roundBookkeepingProg
  by_cases hr : 1 ≤ q ∧ q ≤ cfg.totalPages
  · simp only [hr, if_true]
    exact bookkeepEntry1_success cfg ceil q (prog q) h
  · simp only [hr, if_false]
    exact Or.inl h

theorem step_skipped {cfg : Config} {s t : RunState} (h : Step cfg s t)
    (page : Nat) (hs : (s.progress page).status = PStatus.skipped) :
    (t.progress page).status = PStatus.skipped := by
  cases h with
  | worker q data s hst =>
      by_cases hq : page = q
      · rw [hq] at hs
        rcases hst with h1 | h1 <;> rw [hs] at h1 <;> exact PStatus.noConfusion h1
      · rw [processPage_progress_other cfg q data s page hq]
        exact hs
  | bookkeeping s => exact roundBookkeepingProg_skipped cfg s.maxPageAllowed s.progress page hs

theorem step_skippedDate {cfg : Config} {s t : RunState} (h : Step cfg s t)
    (page : Nat) (hs : (s.progress page).status = PStatus.skippedDate)
    (hc : s.maxPageAllowed < page) :
    (t.progress page).status = PStatus.skippedDate := by
  cases h with
  | worker q data s hst =>
      by_cases hq : page = q
      · rw [hq] at hs
        rcases hst with h1 | h1 <;> rw [hs] at h1 <;> exact PStatus.noConfusion h1
      · rw [processPage_progress_other cfg q data s page hq]
        exact hs
  | bookkeeping s =>
      exact roundBookkeepingProg_skippedDate cfg s.maxPageAllowed s.progress page hs hc

theorem step_success {cfg : Config} {s t : RunState} (h : Step cfg s t)
    (page : Nat) (hs : (s.progress page).status = PStatus.success) :
    (t.progress page).status = PStatus.success ∨
      ((t.progress page).status = PStatus.skippedDate ∧
        t.maxPageAllowed < page) := by
  cases h with
  | worker q data s hst =>
      by_cases hq : page = q
      · rw [hq] at hs
        rcases hst with h1 | h1 <;> rw [hs] at h1 <;> exact PStatus.noConfusion h1
      · rw [processPage_progress_other cfg q data s page hq]
        exact Or.inl hs
  | bookkeeping s =>
      exact roundBookkeepingProg_success cfg s.maxPageAllowed s.progress page hs

theorem steps_status_evolution {cfg : Config} {s t : RunState}
    (h : Steps cfg s t) (page : Nat) :
    ((s.progress page).status = PStatus.skipped →
      (t.progress page).status = PStatus.skipped) ∧
    ((s.progress page).status = PStatus.skippedDate → s.maxPageAllowed < page →
      (t.progress page).status = PStatus.skippedDate) ∧
    ((s.progress page).status = PStatus.success →
      (t.progress page).status = PStatus.success ∨
        ((t.progress page).status = PStatus.skippedDate ∧
          t.maxPageAllowed < page)) := by
  induction h with
  | refl =>
      refine ⟨fun h1 => h1, fun h1 _ => h1, fun h1 => Or.inl h1⟩
  | tail hsteps hstep ih =>
      rename_i b c
      refine ⟨?_, ?_, ?_⟩
      · intro h1
        exact step_skipped hstep page (ih.1 h1)
      · intro h1 h2
        have hb : (b.progress page).status = PStatus.skippedDate := ih.2.1 h1 h2
        have hcb : b.maxPageAllowed < page :=
          Nat.lt_of_le_of_lt (steps_maxPageAllowed_le hsteps) h2
        exact step_skippedDate hstep page hb hcb
      · intro h1
        rcases ih.2.2 h1 with hb | ⟨hb, hcb⟩
        · exact step_success hstep page hb
        · refine Or.inr ⟨step_skippedDate hstep page hb hcb, ?_⟩
          exact Nat.lt_of_le_of_lt (step_maxPageAllowed_le hstep) hcb

theorem lookupD_perm {l1 l2 : List (Nat × List Row)} (h : l1.Perm l2)
    (hnd : (l2.map Prod.fst).Nodup) (q : Nat) : lookupD l1 q = lookupD l2 q := by
  induction h with
  | nil => rfl
  | cons x hp ih =>
      obtain ⟨k, v⟩ := x
      rw [List.map_cons] at hnd
      have hnd' := List.Nodup.of_cons hnd
      by_cases hq : q = k
      · simp [lookupD, hq]
      · simp only [lookupD, if_neg hq]
        exact ih hnd'
  | swap x y l =>
      obtain ⟨kx, vx⟩ := x
      obtain ⟨ky, vy⟩ := y
      have hxy : kx ≠ ky := by
        rw [List.map_cons, List.map_cons] at hnd
        have h1 := (List.nodup_cons.mp hnd).1
        intro hc
        exact h1 (by simp [hc])
      have hyx : ky ≠ kx := Ne.symm hxy
      by_cases hqy : q = ky <;> by_cases hqx : q = kx
      · exact absurd (hqx.symm.trans hqy) hxy
      · simp [lookupD, hqy, hqx, hyx]
      · simp [lookupD, hqy, hqx, hxy]
      · simp [lookupD, hqy, hqx]
  | trans h1 h2 ih1 ih2 =>
      have hndm : (List.map Prod.fst _).Nodup := ((h2.map Prod.fst).nodup_iff).mpr hnd
      exact (ih1 hndm).trans (ih2 hnd)

/-- Boolean date-window test for one row: its parsed date exists and lies in
the inclusive window (rows with unparseable dates never qualify). -/
def rowInWindow (startDate endDate : Int) (r : Row) : Bool :=
  match r.date? with
  | some d => decide (startDate ≤ d ∧ d ≤ endDate)
  | none => false

theorem rowInWindow_iff (startDate endDate : Int) (r : Row) :
    rowInWindow startDate endDate r = true ↔
      ∃ d, r.date? = some d ∧ startDate ≤ d ∧ d ≤ endDate := by
  unfold rowInWindow
  cases hd : r.date? with
  | none => simp
  | some d => simp [hd]

theorem collectDatesAndFilter_snd (startDate endDate : Int) (rows : List Row) :
    (collectDatesAndFilter startDate endDate rows).2 =
      rows.filter (rowInWindow startDate endDate) := by
  induction rows with
  | nil => rfl
  | cons item rest ih =>
      cases hd : item.date? with
      | none =>
          have hw : rowInWindow startDate endDate item = false := by
            simp [rowInWindow, hd]
          simp only [collectDatesAndFilter, hd, List.filter_cons, hw]
          simpa using ih
      | some d =>
          by_cases h : startDate ≤ d ∧ d ≤ endDate
          · have hb : (startDate ≤ d && d ≤ endDate) = true := by
              simp [h.1, h.2]
            have hw : rowInWindow startDate endDate item = true := by
              simp [rowInWindow, hd, h]
            simp only [collectDatesAndFilter, hd, List.filter_cons, hw, hb,
              if_true]
            simpa using ih
          · have hb : (startDate ≤ d && d ≤ endDate) = false := by
              rcases Decidable.not_and_iff_or_not.mp h with h1 | h1 <;> simp [h1]
            have hw : rowInWindow startDate endDate item = false := by
              simp only [rowInWindow, hd]
              exact decide_eq_false h
            simp only [collectDatesAndFilter, hd, List.filter_cons, hw, hb,
              if_false]
            simpa using ih

theorem collectDatesAndFilter_fst (startDate endDate : Int) (rows : List Row) :
    (collectDatesAndFilter startDate endDate rows).1 =
      rows.filterMap (fun r => r.date?) := by
  induction rows with
  | nil => rfl
  | cons item rest ih =>
      cases hd : item.date? with
      | none =>
          simp only [collectDatesAndFilter, hd, List.filterMap_cons]
          simpa using ih
      | some d =>
          simp only [collectDatesAndFilter, hd, List.filterMap_cons]
          simpa using ih

/-!
Concrete fetch environments used by the scenario claims: dates are day
numbers, the configured window is `[100, 200]` (or `[5, 10]` for the CLI
claims).
-/

/-- Row inside the `[100, 200]` window, date 150. -/
def rowA1 : Row := { payload := "a1", date? := some 150 }

/-- Row inside the `[100, 200]` window, date 160. -/
def rowA2 : Row := { payload := "a2", date? := some 160 }

/-- Row dated 50, strictly before the window start 100. -/
def rowOld : Row := { payload := "old", date? := some 50 }

/-- Scenario A configuration: 3 total pages of size 2, window `[100, 200]`. -/
def cfgA : Config :=
  { totalPages := 3, pageSize := 2, workerCount := 5, maxRetries := 5,
    startDate := 100, endDate := 200 }

/-- Scenario A environment: page 1 yields 2 in-window rows, page 2 yields a
single row dated before the window, page 3 yields nothing. -/
def fetchA : Nat → Nat → List Row := fun page _ =>
  if page = 1 then [rowA1, rowA2] else if page = 2 then [rowOld] else []

/-- Two-page configuration whose final page is a partial page of old rows. -/
def cfgB : Config :=
  { totalPages := 2, pageSize := 2, workerCount := 5, maxRetries := 5,
    startDate := 100, endDate := 200 }

/-- Environment for `cfgB`: page 1 succeeds with in-window rows; page 2 (the
final page) succeeds with one row dated before the window, which lowers the
ceiling to 1. -/
def fetchB : Nat → Nat → List Row := fun page _ =>
  if page = 1 then [rowA1, rowA2] else [rowOld]

/-- Five rows dated 6..10, inside the `[5, 10]` window. -/
def rowsWin : List Row :=
  [{ payload := "w1", date? := some 6 }, { payload := "w2", date? := some 7 },
   { payload := "w3", date? := some 8 }, { payload := "w4", date? := some 9 },
   { payload := "w5", date? := some 10 }]

/-- Environment returning the same full in-window page everywhere. -/
def fetchWin : Nat → Nat → List Row := fun _ _ => rowsWin

/-- C4 counterexample: on the last page (`page = totalPages = 3`) with an
empty row list, the claim's criterion `len = page_size ∨ page = last` holds,
but the code marks the fetch unsuccessful because `if data and ...` also
requires a non-empty row list. -/
theorem claim4_counterexample :
    ¬ (workerSuccess [] 20 3 3 = true ↔
        (List.length ([] : List Row) = 20 ∨ (3 : Nat) = 3)) := by
  decide

/-- C4 (amended): a fetch is marked successful iff the row list is non-empty
AND (its length equals the configured page size or the page is the last known
page); every attempt increments the page's attempt counter, and every
non-successful outcome is recorded as status `failed` (retryable). -/
theorem claim4_success_criterion_amended (data : List Row)
    (pageSize page totalPages : Nat) (errorMsg : String) (e : PageEntry) :
    (workerSuccess data pageSize page totalPages = true ↔
      data ≠ [] ∧ (data.length = pageSize ∨ page = totalPages)) ∧
    (bookkeepAttempt (workerSuccess data pageSize page totalPages) errorMsg
        data.length e).attempts = e.attempts + 1 ∧
    (workerSuccess data pageSize page totalPages = false →
      (bookkeepAttempt (workerSuccess data pageSize page totalPages) errorMsg
        data.length e).status = PStatus.failed) := by
  refine ⟨?_, bookkeepAttempt_attempts _ _ _ _, ?_⟩
  · unfold workerSuccess
    simp [List.isEmpty_iff]
  · intro hf
    rw [hf]
    unfold bookkeepAttempt
    simp

/-- C4 witness: concrete failed fetch (empty data, non-final page). -/
theorem claim4_witness :
    (bookkeepAttempt (workerSuccess [] 20 3 4) "x"
      (List.length ([] : List Row)) initEntry).status = PStatus.failed :=
  (claim4_success_criterion_amended [] 20 3 4 "x" initEntry).2.2 rfl

/-- C8: the round's partition has one bucket per worker, and a page belongs
to bucket `i` exactly when it is pending and `(page - 1) % worker_count = i`;
the owning bucket index is always a valid worker id. -/
theorem claim8_partition (workerCount : Nat) (pages : List Nat) (page i : Nat)
    (hw : 1 ≤ workerCount) (hi : i < workerCount) :
    (assign_pages_to_workers workerCount pages).length = workerCount ∧
    (page ∈ (assign_pages_to_workers workerCount pages).getD i [] ↔
      page ∈ pages ∧ (page - 1) % workerCount = i) ∧
    (page - 1) % workerCount < workerCount := by
  refine ⟨?_, ?_, Nat.mod_lt _ hw⟩
  · simp [assign_pages_to_workers]
  · unfold assign_pages_to_workers
    rw [List.getD_eq_getElem?_getD, List.getElem?_map, List.getElem?_range hi]
    simp [List.mem_filter]

/-- C8 witness: with 2 workers, page 3 sits exactly in bucket 0. -/
theorem claim8_witness :
    (assign_pages_to_workers 2 [1, 2, 3]).length = 2 ∧
    (3 ∈ (assign_pages_to_workers 2 [1, 2, 3]).getD 0 [] ↔
      3 ∈ [1, 2, 3] ∧ (3 - 1) % 2 = 0) ∧
    (3 - 1) % 2 < 2 :=
  claim8_partition 2 [1, 2, 3] 3 0 (by decide) (by decide)

/-- C9: the worker's filtering pass retains exactly the rows whose parsed
date lies in the inclusive window; the collected date list (which feeds the
page's min/max statistics) is exactly the parseable dates, so an unparseable
row is silently dropped and never counted. -/
theorem claim9_date_filter (startDate endDate : Int) (rows : List Row) :
    (collectDatesAndFilter startDate endDate rows).2 =
      rows.filter (rowInWindow startDate endDate) ∧
    (collectDatesAndFilter startDate endDate rows).1 =
      rows.filterMap (fun r => r.date?) ∧
    ∀ r : Row, r ∈ (collectDatesAndFilter startDate endDate rows).2 ↔
      r ∈ rows ∧ ∃ d, r.date? = some d ∧ startDate ≤ d ∧ d ≤ endDate := by
  refine ⟨collectDatesAndFilter_snd startDate endDate rows,
    collectDatesAndFilter_fst startDate endDate rows, ?_⟩
  intro r
  rw [collectDatesAndFilter_snd, List.mem_filter, rowInWindow_iff]

/-- C10: a raised fetch exception is mapped to the empty row list, so a page
whose fetch failed is processed identically to a page that genuinely returned
zero rows: same `failed` status, same error text 無資料或解析失敗, same
attempt increment — the error categories collapse. -/
theorem claim10_error_collapse (e : String) (cfg : Config) (page : Nat)
    (s : RunState) :
    scrape_page_from_html (Except.error e) = scrape_page_from_html (Except.ok []) ∧
    processPage cfg page (scrape_page_from_html (Except.error e)) s =
      processPage cfg page (scrape_page_from_html (Except.ok [])) s ∧
    ((processPage cfg page (scrape_page_from_html (Except.error e)) s).progress
        page).status = PStatus.failed ∧
    ((processPage cfg page (scrape_page_from_html (Except.error e)) s).progress
        page).lastError = some "無資料或解析失敗" ∧
    ((processPage cfg page (scrape_page_from_html (Except.error e)) s).progress
        page).attempts = (s.progress page).attempts + 1 := by
  refine ⟨rfl, rfl, ?_, ?_, ?_⟩ <;>
    simp [scrape_page_from_html, processPage, workerSuccess, workerErrorMsg,
      bookkeepAttempt, updateFn]

/-- C7: flattening depends only on the page-indexed mapping — any two
insertion orders (completion orders) of the same aggregate flatten to the
same output (in particular flattening an unchanged aggregate twice gives
identical output) — and the flattened output concatenates the pages' row
blocks along a strictly ascending page-index key order. -/
theorem claim7_flatten_order (agg agg2 : List (Nat × List Row))
    (hnd : (agg.map Prod.fst).Nodup) (hperm : agg2.Perm agg) :
    flatten_results agg2 = flatten_results agg ∧
    List.Pairwise (fun a b => a < b)
      (List.insertionSort (fun a b => a ≤ b) (agg.map Prod.fst)) ∧
    flatten_results agg =
      (List.insertionSort (fun a b => a ≤ b) (agg.map Prod.fst)).flatMap
        (fun page => lookupD agg page) := by
  have hsortEq : List.insertionSort (fun a b => a ≤ b) (agg2.map Prod.fst) =
      List.insertionSort (fun a b => a ≤ b) (agg.map Prod.fst) :=
    List.eq_of_perm_of_sorted
      ((List.perm_insertionSort _ _).trans
        ((hperm.map Prod.fst).trans (List.perm_insertionSort _ _).symm))
      (List.sorted_insertionSort (fun a b => a ≤ b) _)
      (List.sorted_insertionSort (fun a b => a ≤ b) _)
  have hlk : (fun page => lookupD agg2 page) = (fun page => lookupD agg page) :=
    funext fun q => lookupD_perm hperm hnd q
  refine ⟨?_, ?_, rfl⟩
  · unfold flatten_results
    rw [hsortEq, hlk]
  · have hs : List.Sorted (fun a b => a ≤ b)
        (List.insertionSort (fun a b => a ≤ b) (agg.map Prod.fst)) :=
      List.sorted_insertionSort _ _
    have hnds : (List.insertionSort (fun a b => a ≤ b) (agg.map Prod.fst)).Nodup :=
      ((List.perm_insertionSort _ _).nodup_iff).mpr hnd
    exact List.Sorted.lt_of_le hs hnds

/-- Aggregate with page 2 completed before page 1. -/
def aggW : List (Nat × List Row) := [(2, [rowOld]), (1, [rowA1])]

/-- The same aggregate mapping with the completion order reversed. -/
def aggW2 : List (Nat × List Row) := [(1, [rowA1]), (2, [rowOld])]

/-- C7 witness: the two completion orders of the same mapping flatten
identically and in ascending page order. -/
theorem claim7_witness :
    flatten_results aggW2 = flatten_results aggW ∧
    List.Pairwise (fun a b => a < b)
      (List.insertionSort (fun a b => a ≤ b) (aggW.map Prod.fst)) ∧
    flatten_results aggW =
      (List.insertionSort (fun a b => a ≤ b) (aggW.map Prod.fst)).flatMap
        (fun page => lookupD aggW page) :=
  claim7_flatten_order aggW aggW2 (by decide) (by decide)

/-- C5 counterexample: running the code on Scenario A's environment, the
ceiling is never lowered to 1 (page 2's single-row fetch is a failure, so no
dates are collected from it) and the unfinished list is not empty. -/
theorem claim5_counterexample :
    ¬ ((run_parallel_scrape_with_tracking cfgA fetchA).final.maxPageAllowed = 1 ∧
       (run_parallel_scrape_with_tracking cfgA fetchA).unfinished = []) := by
  decide

/-- C5 (amended): on Scenario A's environment the code aggregates exactly
page 1's two rows, but page 2's 1-row fetch is a retryable failure that does
not touch the ceiling (it stays 3), page 3 is fetched and fails too, and the
run stops by convergence after the second round with unfinished pages
`[2, 3]` still in status `failed` after 2 attempts each. -/
theorem claim5_scenarioA_amended :
    (run_parallel_scrape_with_tracking cfgA fetchA).aggregated = [rowA1, rowA2] ∧
    (run_parallel_scrape_with_tracking cfgA fetchA).final.maxPageAllowed = 3 ∧
    (run_parallel_scrape_with_tracking cfgA fetchA).unfinished = [2, 3] ∧
    ((run_parallel_scrape_with_tracking cfgA fetchA).final.progress 2).status =
      PStatus.failed ∧
    ((run_parallel_scrape_with_tracking cfgA fetchA).final.progress 3).status =
      PStatus.failed ∧
    ((run_parallel_scrape_with_tracking cfgA fetchA).final.progress 2).attempts = 2 := by
  decide

/-- C2 counterexample: with end date 5 strictly earlier than start date 10
the run does not fail fast — it performs a fetch attempt on page 1 and
produces a non-empty aggregate. -/
theorem claim2_counterexample :
    (5 : Int) < 10 ∧
    (mainRun 10 5 5 5 5 (Except.ok 1) fetchWin).aggregated ≠ [] ∧
    ((mainRun 10 5 5 5 5 (Except.ok 1) fetchWin).final.progress 1).attempts = 1 := by
  refine ⟨by norm_num, by decide, by decide⟩

/-- C2 (amended): when the supplied end date is strictly earlier than the
start date, `main` swaps the two dates and the run proceeds exactly as if
they had been supplied in order — no fail-fast, no forced empty aggregate. -/
theorem claim2_swap_amended (startArg endArg : Int) (ps w r : Nat)
    (metaFetch : Except String Nat) (fetch : Nat → Nat → List Row)
    (h : endArg < startArg) :
    mainRun startArg endArg ps w r metaFetch fetch =
      mainRun endArg startArg ps w r metaFetch fetch := by
  have h1 : normalizeCliDates startArg endArg = (endArg, startArg) := by
    unfold normalizeCliDates
    rw [if_pos h]
  have h2 : normalizeCliDates endArg startArg = (endArg, startArg) := by
    unfold normalizeCliDates
    rw [if_neg (lt_asymm h)]
  unfold mainRun
  rw [h1, h2]

/-- C2 witness: the reversed-dates run coincides with the in-order run. -/
theorem claim2_witness :
    mainRun 10 5 5 5 5 (Except.ok 1) fetchWin =
      mainRun 5 10 5 5 5 (Except.ok 1) fetchWin :=
  claim2_swap_amended 10 5 5 5 5 (Except.ok 1) fetchWin (by norm_num)

/-- C3 counterexample: when the metadata fetch fails, the run does not
finalize empty — it defaults to one page, attempts it, and aggregates its
rows. -/
theorem claim3_counterexample :
    (mainRun 5 10 5 5 5 (Except.error "timeout") fetchWin).aggregated ≠ [] ∧
    ((mainRun 5 10 5 5 5 (Except.error "timeout") fetchWin).final.progress 1).attempts
      = 1 := by
  refine ⟨by decide, by decide⟩

/-- Configuration produced by `main` for window `[5, 10]`, default page size,
workers and retries, when the metadata fetch failed (total defaults to 1). -/
def cfgSolo : Config :=
  { totalPages := 1, pageSize := 20, workerCount := 5, maxRetries := 5,
    startDate := 5, endDate := 10 }

/-- State of a `cfgSolo` run after the first round's opening bookkeeping. -/
def sAfterBk : RunState :=
  { progress := roundBookkeepingProg cfgSolo 1 (fun _ => initEntry),
    results := [], maxPageAllowed := 1 }

/-- C3 (amended): a metadata fetch that *yields 0* finalizes immediately with
an empty aggregate and zero attempts everywhere, but a metadata fetch that
*fails* makes `detect_total_pages` default to 1, and the round loop then
runs: page 1 is attempted at least once, whatever the fetch environment
returns. -/
theorem claim3_detect_amended :
    (∀ e : String, detect_total_pages (Except.error e) = 1) ∧
    (∀ (sa ea : Int) (ps w r : Nat) (fetch : Nat → Nat → List Row),
      (mainRun sa ea ps w r (Except.ok 0) fetch).aggregated = [] ∧
      ∀ p : Nat,
        ((mainRun sa ea ps w r (Except.ok 0) fetch).final.progress p).attempts = 0) ∧
    (∀ (e : String) (fetch : Nat → Nat → List Row),
      1 ≤ ((mainRun 5 10 20 5 5 (Except.error e) fetch).final.progress 1).attempts) := by
  refine ⟨fun e => rfl, ?_, ?_⟩
  · intro sa ea ps w r fetch
    exact ⟨rfl, fun p => rfl⟩
  · intro e fetch
    have h1 : ((processPage cfgSolo 1 (fetch 1 0) sAfterBk).progress 1).attempts = 1 := by
      rw [processPage_attempts_self]
      rfl
    have hm : (mainRun 5 10 20 5 5 (Except.error e) fetch).final =
        runRounds cfgSolo fetch 3 (initState cfgSolo) := rfl
    have hpeel : runRounds cfgSolo fetch 3 (initState cfgSolo) =
        (if count_completed cfgSolo.totalPages
              (processPage cfgSolo 1 (fetch 1 0) sAfterBk).progress =
            count_completed cfgSolo.totalPages sAfterBk.progress
         then processPage cfgSolo 1 (fetch 1 0) sAfterBk
         else runRounds cfgSolo fetch 2 (processPage cfgSolo 1 (fetch 1 0) sAfterBk)) :=
      rfl
    rw [hm, hpeel]
    split
    · exact h1.ge
    · exact le_trans h1.ge (runRounds_attempts_le cfgSolo fetch 2 _ 1)

/-- C1 counterexample: in the `cfgB`/`fetchB` run, page 2's status becomes
`success` after round 1 (its fetch of the partial final page succeeded), yet
the next round's bookkeeping re-mutates it to `skipped_date` because the
ceiling dropped to 1 — so `success` is not terminal, and the page even ends
up in the unfinished list. -/
theorem claim1_counterexample :
    ((runRounds cfgB fetchB 1 (initState cfgB)).progress 2).status =
      PStatus.success ∧
    ((run_parallel_scrape_with_tracking cfgB fetchB).final.progress 2).status =
      PStatus.skippedDate ∧
    (run_parallel_scrape_with_tracking cfgB fetchB).unfinished = [2] := by
  decide

/-- C1 (amended): over any trace of locked operations, `skipped` and
`skipped_date` are truly terminal (with the run invariant that a
`skipped_date` page lies above the ceiling); a `success` page either stays
`success` or — exactly when the ceiling has dropped below its index — is
re-marked `skipped_date` by the round bookkeeping. -/
theorem claim1_terminal_amended (cfg : Config) (s t : RunState) (page : Nat)
    (h : Steps cfg s t) :
    ((s.progress page).status = PStatus.skipped →
      (t.progress page).status = PStatus.skipped) ∧
    ((s.progress page).status = PStatus.skippedDate → s.maxPageAllowed < page →
      (t.progress page).status = PStatus.skippedDate) ∧
    ((s.progress page).status = PStatus.success →
      (t.progress page).status = PStatus.success ∨
        ((t.progress page).status = PStatus.skippedDate ∧
          t.maxPageAllowed < page)) :=
  steps_status_evolution h page

/-- State after round 1 of the `cfgB` run (page 2 newly successful,
ceiling already lowered to 1). -/
def s1B : RunState := runRounds cfgB fetchB 1 (initState cfgB)

/-- State after the following round-opening bookkeeping pass. -/
def s2B : RunState :=
  { s1B with progress := roundBookkeepingProg cfgB s1B.maxPageAllowed s1B.progress }

/-- C1 witness: the amended theorem applied to the one-step bookkeeping trace
from `s1B`, where page 2 is `success`. -/
theorem claim1_witness :
    (s2B.progress 2).status = PStatus.success ∨
      ((s2B.progress 2).status = PStatus.skippedDate ∧ s2B.maxPageAllowed < 2) :=
  (claim1_terminal_amended cfgB s1B s2B 2
    (Relation.ReflTransGen.single (Step.bookkeeping s1B))).2.2 (by decide)

/-- C6: the ceiling starts at `total_pages`, is non-increasing along every
trace of locked operations (for observations t1 before t2,
`ceiling(t2) ≤ ceiling(t1)`), and each individual update either leaves it
unchanged or sets it to `min(current, page - 1)` — never raising it. -/
theorem claim6_ceiling_monotone (cfg : Config) :
    (initState cfg).maxPageAllowed = cfg.totalPages ∧
    (∀ s t : RunState, Steps cfg s t → t.maxPageAllowed ≤ s.maxPageAllowed) ∧
    (∀ (startDate : Int) (page : Nat) (pdates : List Int) (ceil : Nat),
      updateCeiling startDate page pdates ceil ≤ ceil ∧
      (updateCeiling startDate page pdates ceil = ceil ∨
        updateCeiling startDate page pdates ceil = min ceil (page - 1))) :=
  ⟨rfl, fun _ _ h => steps_maxPageAllowed_le h,
   fun startDate page pdates ceil =>
     ⟨updateCeiling_le startDate page pdates ceil,
      updateCeiling_cases startDate page pdates ceil⟩⟩

/-- Initial state of the `cfgB` run, first observation point. -/
def s0C : RunState := initState cfgB

/-- State after one worker step processing page 1, second observation point. -/
def s1C : RunState := processPage cfgB 1 [rowA1, rowA2] s0C

/-- C6 witness: the monotonicity part applied to a concrete one-step trace. -/
theorem claim6_witness : s1C.maxPageAllowed ≤ s0C.maxPageAllowed :=
  (claim6_ceiling_monotone cfgB).2.1 s0C s1C
    (Relation.ReflTransGen.single (Step.worker 1 [rowA1, rowA2] s0C (Or.inl rfl)))
